import Mathlib

/-!
Verification of the response-time-analysis (RTA) engine.

This file gives a shallow embedding, over exact rational arithmetic, of the
core of the repository: the `Task` / `TaskSet` data model (`src/rta/models.py`),
the fixed-point response-time computation and the whole-task-set analysis
(`src/rta/analysis.py`), and the UUniFast utilization generator
(`src/rta/generators.py`).  Python floats are modelled as rationals (`ℚ`),
Python `int` as `ℤ`, `None`-returning functions as `Option`, raised
exceptions as `Except PyError`, and the pseudo-random draws consumed by
`uunifast` as an explicit oracle list of already-powered factors.
The error messages keep the static text of the corresponding Python
`ValueError` calls; the interpolated numeric values are elided.
-/

namespace RTA

/-- Mirror of a raised Python exception: the exception class name and the
static part of its message.  Every `raise` in the modelled sources raises
`ValueError(...)`, so `kind` is always `"ValueError"`. -/
structure PyError where
  kind : String
  msg : String
deriving DecidableEq, Repr

/-- Mirror of `rta.models.Task` (a frozen dataclass): worst-case execution
time `C`, period `T`, relative deadline `D` (already resolved — the
constructor model `Task.make` performs the `D = T` defaulting), a name and
an optional integer priority. -/
structure Task where
  C : ℚ
  T : ℚ
  D : ℚ
  name : String
  priority : Option ℤ
deriving DecidableEq, Repr

/-- The invariants `Task.__post_init__` establishes for a successfully
constructed task. -/
def ValidTask (t : Task) : Prop :=
  0 < t.C ∧ 0 < t.T ∧ t.C ≤ t.T ∧ 0 < t.D ∧ t.D ≤ t.T ∧ t.C ≤ t.D

instance (t : Task) : Decidable (ValidTask t) := by
  unfold ValidTask
  infer_instance

/-- Mirror of `Task.__post_init__` (models.py lines 25-43): validation and
deadline defaulting, with `raise ValueError(...)` modelled as `Except.error`. -/
def Task.make (C T : ℚ) (D? : Option ℚ) (name : String) (priority : Option ℤ) :
    Except PyError Task :=
  if C ≤ 0 then .error ⟨"ValueError", "C must be positive"⟩
  else if T ≤ 0 then .error ⟨"ValueError", "T must be positive"⟩
  else if T < C then .error ⟨"ValueError", "C cannot exceed T"⟩
  else
    match D? with
    | none => ok1 C T T name priority
    | some D =>
      if D ≤ 0 then .error ⟨"ValueError", "D must be positive"⟩
      else if T < D then .error ⟨"ValueError", "D cannot exceed T"⟩
      else ok1 C T D name priority
where
  ok1 (C T D : ℚ) (name : String) (priority : Option ℤ) : Except PyError Task :=
    if D < C then .error ⟨"ValueError", "C cannot exceed D"⟩
    else .ok ⟨C, T, D, name, priority⟩

/-- Interference term of one RTA iteration (analysis.py lines 64-68):
`sum over hp of ceil(R / T_j) * C_j`. -/
def interference (hp : List Task) (R : ℚ) : ℚ :=
  (hp.map (fun t => (⌈R / t.T⌉ : ℚ) * t.C)).sum

/-- One iteration of the fixed-point computation (analysis.py line 71):
`R_new = C + interference`. -/
def nextIter (task : Task) (hp : List Task) (R : ℚ) : ℚ :=
  task.C + interference hp R

/-- The iteration loop of `compute_response_time` (analysis.py lines 62-84),
with the remaining iteration count as fuel.  Checks, in source order: the
deadline miss `R_new > D` (returns `none`), then convergence
`|R_new - R_prev| < 1e-9` (returns `some R_new`); when the fuel runs out the
loop falls through to `return None`. -/
def rtLoop (task : Task) (hp : List Task) : ℕ → ℚ → Option ℚ
  | 0, _ => none
  | fuel+1, Rprev =>
    if task.D < nextIter task hp Rprev then none
    else if |nextIter task hp Rprev - Rprev| < 1/1000000000 then some (nextIter task hp Rprev)
    else rtLoop task hp fuel (nextIter task hp Rprev)

/-- Mirror of `rta.analysis.compute_response_time`: iteration starts at
`R_0 = C` with `max_iterations` fuel (default 1000). -/
def compute_response_time (task : Task) (hp : List Task) (maxIter : ℕ := 1000) :
    Option ℚ :=
  rtLoop task hp maxIter task.C

/-- Mirror of `rta.analysis.is_schedulable`. -/
def is_schedulable (task : Task) (hp : List Task) : Bool :=
  (compute_response_time task hp 1000).isSome

/-- Sort key order used by `TaskSet._assign_rate_monotonic_priorities`
(models.py line 87): ascending period. -/
def leT (a b : Task) : Prop := a.T ≤ b.T

instance : DecidableRel leT := fun a b => inferInstanceAs (Decidable (a.T ≤ b.T))

instance : IsTotal Task leT := ⟨fun a b => le_total a.T b.T⟩

instance : IsTrans Task leT := ⟨fun _ _ _ h h2 => le_trans h h2⟩

instance : IsRefl Task leT := ⟨fun _ => le_refl _⟩

/-- The re-derived task built for position `i` of the Rate-Monotonic order
(models.py lines 92-98): same `C`, `T`, `D`; the name defaults to `τ(i+1)`
when empty; priority `i`. -/
def rmUpd (i : ℕ) (t : Task) : Task :=
  ⟨t.C, t.T, t.D, if t.name = "" then "τ" ++ toString (i+1) else t.name, some (i : ℤ)⟩

/-- The `for i, task in enumerate(sorted_tasks)` loop of
`_assign_rate_monotonic_priorities`, carrying the running index. -/
def assignGo (i : ℕ) : List Task → List Task
  | [] => []
  | t :: rest => rmUpd i t :: assignGo (i+1) rest

/-- Mirror of `TaskSet._assign_rate_monotonic_priorities` (models.py lines
84-102): stable sort by ascending period (Python `sorted` is stable; the
embedding uses the stable `insertionSort`), then dense priorities `0..n-1`. -/
def assignRM (ts : List Task) : List Task :=
  assignGo 0 (List.insertionSort leT ts)

/-- Mirror of `TaskSet.__post_init__` (models.py lines 66-82).  The result
pairs the stored task list with the `_sorted` flag. -/
def TaskSet.make (tasks : List Task) : Except PyError (List Task × Bool) :=
  match tasks with
  | [] => .ok ([], false)
  | _ =>
    if tasks.all (fun t => t.priority.isSome) then .ok (tasks, false)
    else if tasks.all (fun t => t.priority = none) then .ok (assignRM tasks, true)
    else .error ⟨"ValueError", "Either all tasks must have priorities set, or none should."⟩

/-- Sort order used by `TaskSet.get_sorted_tasks` (models.py line 107):
by priority, with `None` mapped to `float('inf')`. -/
def prioLE (a b : Task) : Prop :=
  match a.priority, b.priority with
  | some i, some j => i ≤ j
  | some _, none => True
  | none, some _ => False
  | none, none => True

instance : DecidableRel prioLE := by
  intro a b
  unfold prioLE
  rcases a.priority with _ | i <;> rcases b.priority with _ | j <;> infer_instance

/-- Mirror of `TaskSet.get_sorted_tasks` (models.py lines 104-109): the task
list sorted by priority (Python `list.sort` is stable; the embedding uses the
stable `insertionSort`). -/
def get_sorted_tasks (ts : List Task) : List Task :=
  List.insertionSort prioLE ts

/-- The filter expression of `TaskSet.get_higher_priority_tasks`
(models.py line 117) for a set priority `p`. -/
def hpFilter (ts : List Task) (p : ℤ) : List Task :=
  (get_sorted_tasks ts).filter (fun t =>
    match t.priority with
    | some q => decide (q < p)
    | none => false)

/-- Mirror of `TaskSet.get_higher_priority_tasks` (models.py lines 111-117):
raises (`none`) when the queried task has no priority. -/
def get_higher_priority_tasks (ts : List Task) (task : Task) : Option (List Task) :=
  match task.priority with
  | none => none
  | some p => some (hpFilter ts p)

/-- The dictionary key used by `analyze_taskset` (analysis.py line 128):
the task name, or `Task_prio_<priority>` when the name is empty. -/
def taskKey (t : Task) : String :=
  if t.name = "" then
    "Task_prio_" ++ (match t.priority with
      | some p => toString p
      | none => "None")
  else t.name

/-- Python dict assignment `d[k] = v`: overwrite in place, else append
(insertion order preserved). -/
def dictSet : List (String × Option ℚ) → String → Option ℚ → List (String × Option ℚ)
  | [], k, v => [(k, v)]
  | kv :: rest, k, v => if kv.1 = k then (k, v) :: rest else kv :: dictSet rest k v

/-- The per-task response time as `analyze_taskset` computes it: higher
priority tasks from the task set, `compute_response_time` with the default
1000 iterations. -/
def taskRT (ts : List Task) (t : Task) : Option ℚ :=
  match get_higher_priority_tasks ts t with
  | some hp => compute_response_time t hp 1000
  | none => none

/-- The main loop of `analyze_taskset` (analysis.py lines 124-132), with the
response-time dict and the `all_schedulable` flag as accumulators; a raised
exception from `get_higher_priority_tasks` propagates as `none`. -/
def analyzeGo (ts : List Task) : List Task → List (String × Option ℚ) → Bool →
    Option (Bool × List (String × Option ℚ))
  | [], d, b => some (b, d)
  | task :: rest, d, b =>
    match get_higher_priority_tasks ts task with
    | none => none
    | some hp =>
      analyzeGo ts rest (dictSet d (taskKey task) (compute_response_time task hp 1000))
        (b && (compute_response_time task hp 1000).isSome)

/-- Mirror of `rta.analysis.analyze_taskset` (analysis.py lines 104-134). -/
def analyze_taskset (ts : List Task) : Option (Bool × List (String × Option ℚ)) :=
  analyzeGo ts (get_sorted_tasks ts) [] true

/-- The accumulation loop of `uunifast` (generators.py lines 39-49), taking
the list of already-powered random factors `rng.random() ** (1/(n-i))` as an
oracle: each step peels off `sum_u - next_sum_u` and the final remainder is
appended last. -/
def uunifastLoop : ℚ → List ℚ → List ℚ
  | sumU, [] => [sumU]
  | sumU, d :: ds => (sumU - sumU * d) :: uunifastLoop (sumU * d) ds

/-- Mirror of `rta.generators.uunifast` (generators.py lines 10-51), with the
powered pseudo-random factors supplied as an oracle list. -/
def uunifast (n : ℤ) (uTotal : ℚ) (draws : List ℚ) : Except PyError (List ℚ) :=
  if n ≤ 0 then .error ⟨"ValueError", "Number of tasks must be positive"⟩
  else if uTotal < 0 then .error ⟨"ValueError", "Target utilization must be non-negative"⟩
  else .ok (uunifastLoop uTotal draws)

/-- The error kind of an `Except` result, when it is an error. -/
def errKind {α : Type} : Except PyError α → Option String
  | .error e => some e.kind
  | .ok _ => none

/-- The mathematical iterate sequence `R_0 = C`, `R_{k+1} = C + interference`
of the `compute_response_time` loop. -/
def rtIter (task : Task) (hp : List Task) : ℕ → ℚ
  | 0 => task.C
  | k+1 => nextIter task hp (rtIter task hp k)

/-! ### Helper lemmas -/

theorem ceil_to_floor (a : ℚ) : ⌈a⌉ = -⌊-a⌋ := by
  rw [← Int.ceil_neg, neg_neg]

theorem interference_nonneg (hp : List Task) (R : ℚ)
    (hhp : ∀ t ∈ hp, 0 < t.C ∧ 0 < t.T) (hR : 0 ≤ R) :
    0 ≤ interference hp R := by
  refine List.sum_nonneg ?_
  intro x hx
  obtain ⟨t, ht, rfl⟩ := List.mem_map.mp hx
  obtain ⟨hC, hT⟩ := hhp t ht
  have h1 : (0:ℤ) ≤ ⌈R / t.T⌉ := Int.ceil_nonneg (div_nonneg hR hT.le)
  exact mul_nonneg (by exact_mod_cast h1) hC.le

theorem nextIter_nonneg (task : Task) (hp : List Task) (R : ℚ)
    (hC : 0 ≤ task.C) (hhp : ∀ t ∈ hp, 0 < t.C ∧ 0 < t.T) (hR : 0 ≤ R) :
    0 ≤ nextIter task hp R :=
  add_nonneg hC (interference_nonneg hp R hhp hR)

theorem interference_mono (hp : List Task) {R R2 : ℚ}
    (hhp : ∀ t ∈ hp, 0 < t.C ∧ 0 < t.T) (h : R ≤ R2) :
    interference hp R ≤ interference hp R2 := by
  induction hp with
  | nil => simp [interference]
  | cons t rest ih =>
    have ht := hhp t (List.mem_cons_self t rest)
    have hrest : ∀ s ∈ rest, 0 < s.C ∧ 0 < s.T := fun s hs => hhp s (List.mem_cons_of_mem t hs)
    simp only [interference, List.map_cons, List.sum_cons]
    refine add_le_add ?_ (ih hrest)
    refine mul_le_mul_of_nonneg_right ?_ ht.1.le
    have : (⌈R / t.T⌉ : ℤ) ≤ ⌈R2 / t.T⌉ :=
      Int.ceil_le_ceil (div_le_div_of_nonneg_right h ht.2.le)
    exact_mod_cast this

theorem interference_append_le (hp : List Task) (t : Task) (R : ℚ)
    (ht : 0 < t.C ∧ 0 < t.T) (hR : 0 ≤ R) :
    interference hp R ≤ interference (hp ++ [t]) R := by
  have h1 : 0 ≤ interference [t] R := by
    refine interference_nonneg [t] R ?_ hR
    intro s hs
    rcases List.mem_singleton.mp hs with rfl
    exact ht
  have h2 : interference (hp ++ [t]) R = interference hp R + interference [t] R := by
    simp [interference]
  linarith

theorem rtLoop_some_mono (task : Task) (hp : List Task) :
    ∀ {n m : ℕ} {R r : ℚ}, rtLoop task hp n R = some r → n ≤ m →
      rtLoop task hp m R = some r := by
  intro n
  induction n with
  | zero => intro m R r h _; simp [rtLoop] at h
  | succ n ih =>
    intro m R r h hle
    match m, hle with
    | m+1, hle =>
      rw [rtLoop] at h ⊢
      by_cases h1 : task.D < nextIter task hp R
      · rw [if_pos h1] at h
        exact absurd h (by simp)
      · rw [if_neg h1] at h ⊢
        by_cases h2 : |nextIter task hp R - R| < 1/1000000000
        · rw [if_pos h2] at h ⊢
          exact h
        · rw [if_neg h2] at h ⊢
          exact ih h (by omega)

theorem assignGo_length (i : ℕ) (l : List Task) : (assignGo i l).length = l.length := by
  induction l generalizing i with
  | nil => rfl
  | cons t rest ih => simp [assignGo, ih]

theorem assignGo_get (i : ℕ) (l : List Task) (k : ℕ) (hk : k < (assignGo i l).length)
    (hk2 : k < l.length) :
    (assignGo i l).get ⟨k, hk⟩ = rmUpd (i + k) (l.get ⟨k, hk2⟩) := by
  induction l generalizing i k with
  | nil => simp at hk2
  | cons t rest ih =>
    match k with
    | 0 => simp [assignGo]
    | k+1 =>
      have hk3 : k < (assignGo (i+1) rest).length := by
        simpa [assignGo] using hk
      have hk4 : k < rest.length := by simpa using hk2
      have := ih (i+1) k hk3 hk4
      simp only [assignGo, List.get_cons_succ]
      rw [this]
      congr 1
      omega

theorem rtLoop_bounds (task : Task) (hp : List Task)
    (hC : 0 ≤ task.C) (hhp : ∀ t ∈ hp, 0 < t.C ∧ 0 < t.T) :
    ∀ (fuel : ℕ) (R r : ℚ), 0 ≤ R → rtLoop task hp fuel R = some r →
      task.C ≤ r ∧ r ≤ task.D := by
  intro fuel
  induction fuel with
  | zero => intro R r _ h; simp [rtLoop] at h
  | succ fuel ih =>
    intro R r hR h
    rw [rtLoop] at h
    by_cases h1 : task.D < nextIter task hp R
    · rw [if_pos h1] at h
      exact absurd h (by simp)
    · rw [if_neg h1] at h
      by_cases h2 : |nextIter task hp R - R| < 1/1000000000
      · rw [if_pos h2] at h
        obtain rfl : nextIter task hp R = r := Option.some_injective _ h
        constructor
        · exact le_add_of_nonneg_right (interference_nonneg hp R hhp hR)
        · exact not_lt.mp h1
      · rw [if_neg h2] at h
        exact ih (nextIter task hp R) r (nextIter_nonneg task hp R hC hhp hR) h

/-! ### Claim theorems -/

/-- C1: for every target task with `C ≥ 0` and every list of higher-priority
tasks with positive `C` and `T` (in particular every valid task and list of
valid tasks), whenever `compute_response_time` returns a value `r`, it
satisfies `task.C ≤ r ≤ task.D`. -/
theorem compute_response_time_bounds (task : Task) (hp : List Task) (maxIter : ℕ) (r : ℚ)
    (hC : 0 ≤ task.C) (hhp : ∀ t ∈ hp, 0 < t.C ∧ 0 < t.T)
    (h : compute_response_time task hp maxIter = some r) :
    task.C ≤ r ∧ r ≤ task.D :=
  rtLoop_bounds task hp hC hhp maxIter task.C r hC h

/-- Witness for C1 at the spec scenario `Task(C=2, T=10)` with no
higher-priority tasks: the result `2` lies between `C` and `D`. -/
theorem compute_response_time_bounds_witness :
    compute_response_time ⟨2, 10, 10, "", none⟩ [] 5 = some 2 ∧
    (Task.C ⟨2, 10, 10, "", none⟩ ≤ 2 ∧ 2 ≤ Task.D ⟨2, 10, 10, "", none⟩) := by
  have heval : compute_response_time ⟨2, 10, 10, "", none⟩ [] 5 = some 2 := by
    norm_num [compute_response_time, rtLoop, nextIter, interference]
  exact ⟨heval,
    compute_response_time_bounds ⟨2, 10, 10, "", none⟩ [] 5 2 (by norm_num)
      (by simp) heval⟩

/-- C2: the deadline-miss check runs before the convergence check: from any
loop state `R` whose next iterate exceeds `task.D`, the loop immediately
returns `none` — also when that iterate equals `R` and so would have passed
the convergence test. -/
theorem deadline_check_precedes_convergence (task : Task) (hp : List Task)
    (fuel : ℕ) (R : ℚ) (h : task.D < nextIter task hp R) :
    rtLoop task hp (fuel+1) R = none := by
  rw [rtLoop, if_pos h]

/-- Witness for C2: the task `(C=2, T=12, D=4)` under a higher-priority task
`(C=4, T=8)` has the fixed point `nextIter 6 = 6` which exceeds `D = 4`, and
the loop returns `none` from that state even though the iterate converged. -/
theorem deadline_check_precedes_convergence_witness :
    nextIter ⟨2, 12, 4, "", none⟩ [⟨4, 8, 8, "", none⟩] 6 = 6 ∧
    Task.D ⟨2, 12, 4, "", none⟩ < nextIter ⟨2, 12, 4, "", none⟩ [⟨4, 8, 8, "", none⟩] 6 ∧
    rtLoop ⟨2, 12, 4, "", none⟩ [⟨4, 8, 8, "", none⟩] (999+1) 6 = none := by
  have h6 : nextIter ⟨2, 12, 4, "", none⟩ [⟨4, 8, 8, "", none⟩] 6 = 6 := by
    norm_num [nextIter, interference, ceil_to_floor]
  have hlt : Task.D ⟨2, 12, 4, "", none⟩ < nextIter ⟨2, 12, 4, "", none⟩ [⟨4, 8, 8, "", none⟩] 6 := by
    rw [h6]; norm_num
  exact ⟨h6, hlt, deadline_check_precedes_convergence ⟨2, 12, 4, "", none⟩
    [⟨4, 8, 8, "", none⟩] 999 6 hlt⟩

/-- C10: with `max_iterations = 0` the loop body never runs and
`compute_response_time` returns `none`, for every task and every
higher-priority list (in particular the empty one). -/
theorem compute_response_time_zero_iterations (task : Task) (hp : List Task) :
    compute_response_time task hp 0 = none := rfl

theorem uunifastLoop_length (s : ℚ) (ds : List ℚ) :
    (uunifastLoop s ds).length = ds.length + 1 := by
  induction ds generalizing s with
  | nil => rfl
  | cons d ds ih => simp [uunifastLoop, ih]

theorem uunifastLoop_sum (s : ℚ) (ds : List ℚ) :
    (uunifastLoop s ds).sum = s := by
  induction ds generalizing s with
  | nil => simp [uunifastLoop]
  | cons d ds ih =>
    simp only [uunifastLoop, List.sum_cons, ih]
    ring

theorem uunifastLoop_nonneg (s : ℚ) (ds : List ℚ) (hs : 0 ≤ s)
    (hd : ∀ d ∈ ds, 0 ≤ d ∧ d < 1) :
    ∀ x ∈ uunifastLoop s ds, 0 ≤ x := by
  induction ds generalizing s with
  | nil =>
    intro x hx
    rcases List.mem_singleton.mp hx with rfl
    exact hs
  | cons d ds ih =>
    intro x hx
    have hd0 := hd d (List.mem_cons_self d ds)
    rcases List.mem_cons.mp hx with rfl | hx
    · have : s - s * d = s * (1 - d) := by ring
      rw [this]
      exact mul_nonneg hs (by linarith [hd0.2])
    · exact ih (s * d) (mul_nonneg hs hd0.1)
        (fun e he => hd e (List.mem_cons_of_mem d he)) x hx

/-- C6: for `n > 0`, `u_total ≥ 0` and any sequence of `n-1` powered draws in
`[0, 1)`, `uunifast` succeeds and returns exactly `n` values, each
non-negative, summing exactly to `u_total` (exact in rational arithmetic). -/
theorem uunifast_spec (n : ℤ) (u : ℚ) (draws : List ℚ) (hn : 0 < n) (hu : 0 ≤ u)
    (hlen : (draws.length : ℤ) + 1 = n) (hd : ∀ d ∈ draws, 0 ≤ d ∧ d < 1) :
    ∃ l, uunifast n u draws = .ok l ∧ (l.length : ℤ) = n ∧
      (∀ x ∈ l, 0 ≤ x) ∧ l.sum = u := by
  refine ⟨uunifastLoop u draws, ?_, ?_, ?_, uunifastLoop_sum u draws⟩
  · rw [uunifast, if_neg (not_le.mpr hn), if_neg (not_lt.mpr hu)]
  · rw [uunifastLoop_length]
    exact_mod_cast hlen
  · exact uunifastLoop_nonneg u draws hu hd

/-- Witness for C6 at `n = 2`, `u_total = 1`, one powered draw `1/2`. -/
theorem uunifast_spec_witness :
    (0:ℤ) < 2 ∧ (0:ℚ) ≤ 1 ∧ (([(1:ℚ)/2].length : ℤ) + 1 = 2) ∧
    (∀ d ∈ [(1:ℚ)/2], 0 ≤ d ∧ d < 1) ∧
    (∃ l, uunifast 2 1 [(1:ℚ)/2] = .ok l ∧ (l.length : ℤ) = 2 ∧
      (∀ x ∈ l, 0 ≤ x) ∧ l.sum = 1) := by
  have hd : ∀ d ∈ [(1:ℚ)/2], 0 ≤ d ∧ d < 1 := by
    intro d hdm
    rcases List.mem_singleton.mp hdm with rfl
    norm_num
  exact ⟨by norm_num, by norm_num, by norm_num,
    hd, uunifast_spec 2 1 [(1:ℚ)/2] (by norm_num) (by norm_num) (by norm_num) hd⟩

/-- C7 counterexample: an invalid Task, a mixed-priority TaskSet and an
invalid `uunifast` call all fail with the same error kind `ValueError`
(raised as Python `ValueError` in all three places), so the three failures
are not distinct, inspectable error kinds. -/
theorem error_kinds_counterexample :
    errKind (Task.make 0 10 none "" none) = some "ValueError" ∧
    errKind (TaskSet.make [⟨1, 2, 2, "x", none⟩, ⟨1, 2, 2, "y", some 0⟩]) = some "ValueError" ∧
    errKind (uunifast 0 1 []) = some "ValueError" ∧
    errKind (Task.make 0 10 none "" none) =
      errKind (TaskSet.make [⟨1, 2, 2, "x", none⟩, ⟨1, 2, 2, "y", some 0⟩]) ∧
    errKind (TaskSet.make [⟨1, 2, 2, "x", none⟩, ⟨1, 2, 2, "y", some 0⟩]) =
      errKind (uunifast 0 1 []) := by
  have h1 : errKind (Task.make 0 10 none "" none) = some "ValueError" := by
    rw [Task.make.eq_def, if_pos (by norm_num : (0:ℚ) ≤ 0)]
    rfl
  have h2 : errKind (TaskSet.make [⟨1, 2, 2, "x", none⟩, ⟨1, 2, 2, "y", some 0⟩]) =
      some "ValueError" := by
    simp [TaskSet.make, errKind]
  have h3 : errKind (uunifast 0 1 []) = some "ValueError" := by
    rw [uunifast, if_pos (by norm_num : (0:ℤ) ≤ 0)]
    rfl
  exact ⟨h1, h2, h3, h1.trans h2.symm, h2.trans h3.symm⟩

/-- C7 amended: the three construction-time validations each fail, but all
with the same generic error kind `ValueError` (they are distinguishable only
by message, not by kind). -/
theorem error_kinds_all_valueError :
    (∀ (c t : ℚ) (d : Option ℚ) (nm : String) (pr : Option ℤ), c ≤ 0 →
      errKind (Task.make c t d nm pr) = some "ValueError") ∧
    (∀ t1 t2 : Task, t1.priority = none → (t2.priority).isSome →
      errKind (TaskSet.make [t1, t2]) = some "ValueError") ∧
    (∀ (n : ℤ) (u : ℚ) (draws : List ℚ), n ≤ 0 →
      errKind (uunifast n u draws) = some "ValueError") := by
  refine ⟨?_, ?_, ?_⟩
  · intro c t d nm pr hc
    rw [Task.make.eq_def, if_pos hc]
    rfl
  · intro t1 t2 h1 h2
    have hb : t2.priority ≠ none := Option.isSome_iff_ne_none.mp h2
    simp [TaskSet.make, errKind, h1, hb]
  · intro n u draws hn
    rw [uunifast, if_pos hn]
    rfl

/-- Witness for C7 amended at concrete invalid inputs for the three checks. -/
theorem error_kinds_all_valueError_witness :
    ((0:ℚ) ≤ 0) ∧ Task.priority ⟨1, 2, 2, "x", none⟩ = none ∧
    (Task.priority ⟨1, 2, 2, "y", some 0⟩).isSome = true ∧ ((0:ℤ) ≤ 0) ∧
    errKind (Task.make 0 10 none "nm" none) = some "ValueError" ∧
    errKind (TaskSet.make [⟨1, 2, 2, "x", none⟩, ⟨1, 2, 2, "y", some 0⟩]) = some "ValueError" ∧
    errKind (uunifast 0 1 []) = some "ValueError" :=
  ⟨by norm_num, rfl, rfl, by norm_num,
    error_kinds_all_valueError.1 0 10 none "nm" none (by norm_num),
    error_kinds_all_valueError.2.1 ⟨1, 2, 2, "x", none⟩ ⟨1, 2, 2, "y", some 0⟩ rfl rfl,
    error_kinds_all_valueError.2.2 0 1 [] (by norm_num)⟩

/-- Construction of a task set from a non-empty list of priority-free tasks
takes the Rate-Monotonic assignment branch of `TaskSet.__post_init__`. -/
theorem make_all_none (ts : List Task) (hne : ts ≠ [])
    (hnone : ∀ t ∈ ts, t.priority = none) :
    TaskSet.make ts = .ok (assignRM ts, true) := by
  match ts, hne with
  | t :: rest, _ =>
    have h1 : ((t :: rest).all fun s => s.priority.isSome) = false := by
      simp [List.all_cons, hnone t (List.mem_cons_self t rest)]
    have h2 : ((t :: rest).all fun s => s.priority = none) = true := by
      rw [List.all_eq_true]
      intro s hs
      simp [hnone s hs]
    simp [TaskSet.make, h1, h2]

theorem assignRM_length (ts : List Task) : (assignRM ts).length = ts.length := by
  rw [assignRM, assignGo_length, List.length_insertionSort]

theorem assignRM_get_priority (ts : List Task) (k : ℕ) (hk : k < (assignRM ts).length) :
    ((assignRM ts).get ⟨k, hk⟩).priority = some (k : ℤ) := by
  have hk2 : k < (List.insertionSort leT ts).length := by
    rw [List.length_insertionSort]
    rw [assignRM_length] at hk
    exact hk
  have h := assignGo_get 0 (List.insertionSort leT ts) k hk hk2
  rw [show (assignRM ts).get ⟨k, hk⟩ =
        (assignGo 0 (List.insertionSort leT ts)).get ⟨k, hk⟩ from rfl, h]
  simp [rmUpd]

/-- C8 counterexample: a TaskSet built from two tasks that both carry the
pre-assigned priority `0` is accepted by construction (no error, no
re-assignment), so a successfully constructed TaskSet with all priorities
assigned need not have pairwise distinct priorities. -/
theorem duplicate_priorities_accepted :
    TaskSet.make [⟨1, 10, 10, "a", some 0⟩, ⟨1, 5, 5, "b", some 0⟩] =
      .ok ([⟨1, 10, 10, "a", some 0⟩, ⟨1, 5, 5, "b", some 0⟩], false) ∧
    Task.priority ⟨1, 10, 10, "a", some 0⟩ = Task.priority ⟨1, 5, 5, "b", some 0⟩ := by
  constructor
  · simp [TaskSet.make]
  · rfl

/-- C8 amended: construction only enforces the all-or-none priority rule;
duplicate pre-assigned priorities are accepted.  The pairwise-distinct
non-negative priority property does hold for every TaskSet built from
priority-free tasks, where Rate-Monotonic assignment produces `0..n-1`. -/
theorem rm_priorities_distinct (ts : List Task) (hne : ts ≠ [])
    (hnone : ∀ t ∈ ts, t.priority = none) :
    TaskSet.make ts = .ok (assignRM ts, true) ∧
    List.Pairwise (fun a b : Task => a.priority ≠ b.priority) (assignRM ts) ∧
    (∀ t ∈ assignRM ts, ∃ p : ℤ, t.priority = some p ∧ 0 ≤ p) := by
  refine ⟨make_all_none ts hne hnone, ?_, ?_⟩
  · rw [List.pairwise_iff_get]
    intro i j hij heq
    rw [assignRM_get_priority ts i i.isLt, assignRM_get_priority ts j j.isLt] at heq
    have : (i : ℤ) = (j : ℤ) := Option.some_injective _ heq
    have : (i : ℕ) = (j : ℕ) := by exact_mod_cast this
    omega
  · intro t ht
    obtain ⟨k, hk⟩ := List.mem_iff_get.mp ht
    refine ⟨(k : ℤ), ?_, by positivity⟩
    rw [← hk, assignRM_get_priority ts k k.isLt]

/-- Witness for C8 amended at a one-task priority-free list. -/
theorem rm_priorities_distinct_witness :
    ([⟨1, 10, 10, "a", none⟩] : List Task) ≠ [] ∧
    (∀ t ∈ ([⟨1, 10, 10, "a", none⟩] : List Task), t.priority = none) ∧
    (TaskSet.make [⟨1, 10, 10, "a", none⟩] = .ok (assignRM [⟨1, 10, 10, "a", none⟩], true) ∧
     List.Pairwise (fun a b : Task => a.priority ≠ b.priority) (assignRM [⟨1, 10, 10, "a", none⟩]) ∧
     (∀ t ∈ assignRM [⟨1, 10, 10, "a", none⟩], ∃ p : ℤ, t.priority = some p ∧ 0 ≤ p)) := by
  have hne : ([⟨1, 10, 10, "a", none⟩] : List Task) ≠ [] := by simp
  have hnone : ∀ t ∈ ([⟨1, 10, 10, "a", none⟩] : List Task), t.priority = none := by
    intro t ht
    rcases List.mem_singleton.mp ht with rfl
    rfl
  exact ⟨hne, hnone, rm_priorities_distinct _ hne hnone⟩

theorem assignRM_get_T (ts : List Task) (k : ℕ) (hk : k < (assignRM ts).length)
    (hk2 : k < (List.insertionSort leT ts).length) :
    ((assignRM ts).get ⟨k, hk⟩).T = ((List.insertionSort leT ts).get ⟨k, hk2⟩).T := by
  have h := assignGo_get 0 (List.insertionSort leT ts) k hk hk2
  rw [show (assignRM ts).get ⟨k, hk⟩ =
        (assignGo 0 (List.insertionSort leT ts)).get ⟨k, hk⟩ from rfl, h]
  rfl

theorem assignRM_sorted_T (ts : List Task) (i j : ℕ)
    (hi : i < (assignRM ts).length) (hj : j < (assignRM ts).length) (hij : i ≤ j) :
    ((assignRM ts).get ⟨i, hi⟩).T ≤ ((assignRM ts).get ⟨j, hj⟩).T := by
  have hi2 : i < (List.insertionSort leT ts).length := by
    rw [List.length_insertionSort]
    rw [assignRM_length] at hi
    exact hi
  have hj2 : j < (List.insertionSort leT ts).length := by
    rw [List.length_insertionSort]
    rw [assignRM_length] at hj
    exact hj
  rw [assignRM_get_T ts i hi hi2, assignRM_get_T ts j hj hj2]
  exact List.Sorted.rel_get_of_le (List.sorted_insertionSort leT ts) hij

/-- C4: a TaskSet built from priority-free tasks performs Rate-Monotonic
assignment: the stored list is the stable sort of the input by ascending
period (ties keep input order, witnessed by the pair-sublist stability
property), carries dense priorities `0..n-1` in that order, and consequently
a strictly shorter period always means a strictly smaller priority value. -/
theorem rate_monotonic_assignment_spec (ts : List Task) (hne : ts ≠ [])
    (hnone : ∀ t ∈ ts, t.priority = none) :
    TaskSet.make ts = .ok (assignRM ts, true) ∧
    (assignRM ts).length = ts.length ∧
    (∀ (k : ℕ) (hk : k < (assignRM ts).length),
      ((assignRM ts).get ⟨k, hk⟩).priority = some (k : ℤ)) ∧
    (∀ (i j : ℕ) (hi : i < (assignRM ts).length) (hj : j < (assignRM ts).length),
      i ≤ j → ((assignRM ts).get ⟨i, hi⟩).T ≤ ((assignRM ts).get ⟨j, hj⟩).T) ∧
    (∀ a b : Task, List.Sublist [a, b] ts → a.T ≤ b.T →
      List.Sublist [a, b] (List.insertionSort leT ts)) ∧
    (∀ a ∈ assignRM ts, ∀ b ∈ assignRM ts, a.T < b.T →
      ∃ pa pb : ℤ, a.priority = some pa ∧ b.priority = some pb ∧ pa < pb) := by
  refine ⟨make_all_none ts hne hnone, assignRM_length ts,
    fun k hk => assignRM_get_priority ts k hk, assignRM_sorted_T ts,
    fun a b hab hT => List.pair_sublist_insertionSort hT hab, ?_⟩
  intro a ha b hb hT
  obtain ⟨i, hi⟩ := List.mem_iff_get.mp ha
  obtain ⟨j, hj⟩ := List.mem_iff_get.mp hb
  refine ⟨(i : ℕ), (j : ℕ), ?_, ?_, ?_⟩
  · rw [← hi, assignRM_get_priority ts i i.isLt]
  · rw [← hj, assignRM_get_priority ts j j.isLt]
  · have hlt : (i : ℕ) < (j : ℕ) := by
      by_contra hcon
      have hji : (j : ℕ) ≤ (i : ℕ) := by omega
      have := assignRM_sorted_T ts j i j.isLt i.isLt hji
      rw [hi, hj] at this
      exact absurd hT (not_lt.mpr this)
    exact_mod_cast hlt

/-- Witness for C4 at a two-task priority-free list with periods 10 and 5. -/
theorem rate_monotonic_assignment_spec_witness :
    ([⟨2, 10, 10, "x", none⟩, ⟨1, 5, 5, "y", none⟩] : List Task) ≠ [] ∧
    (∀ t ∈ ([⟨2, 10, 10, "x", none⟩, ⟨1, 5, 5, "y", none⟩] : List Task), t.priority = none) ∧
    (TaskSet.make [⟨2, 10, 10, "x", none⟩, ⟨1, 5, 5, "y", none⟩] =
      .ok (assignRM [⟨2, 10, 10, "x", none⟩, ⟨1, 5, 5, "y", none⟩], true) ∧
    (assignRM [⟨2, 10, 10, "x", none⟩, ⟨1, 5, 5, "y", none⟩]).length =
      ([⟨2, 10, 10, "x", none⟩, ⟨1, 5, 5, "y", none⟩] : List Task).length ∧
    (∀ (k : ℕ) (hk : k < (assignRM [⟨2, 10, 10, "x", none⟩, ⟨1, 5, 5, "y", none⟩]).length),
      ((assignRM [⟨2, 10, 10, "x", none⟩, ⟨1, 5, 5, "y", none⟩]).get ⟨k, hk⟩).priority =
        some (k : ℤ)) ∧
    (∀ (i j : ℕ) (hi : i < (assignRM [⟨2, 10, 10, "x", none⟩, ⟨1, 5, 5, "y", none⟩]).length)
      (hj : j < (assignRM [⟨2, 10, 10, "x", none⟩, ⟨1, 5, 5, "y", none⟩]).length),
      i ≤ j → ((assignRM [⟨2, 10, 10, "x", none⟩, ⟨1, 5, 5, "y", none⟩]).get ⟨i, hi⟩).T ≤
        ((assignRM [⟨2, 10, 10, "x", none⟩, ⟨1, 5, 5, "y", none⟩]).get ⟨j, hj⟩).T) ∧
    (∀ a b : Task, List.Sublist [a, b] [⟨2, 10, 10, "x", none⟩, ⟨1, 5, 5, "y", none⟩] →
      a.T ≤ b.T →
      List.Sublist [a, b] (List.insertionSort leT [⟨2, 10, 10, "x", none⟩, ⟨1, 5, 5, "y", none⟩])) ∧
    (∀ a ∈ assignRM [⟨2, 10, 10, "x", none⟩, ⟨1, 5, 5, "y", none⟩],
      ∀ b ∈ assignRM [⟨2, 10, 10, "x", none⟩, ⟨1, 5, 5, "y", none⟩], a.T < b.T →
      ∃ pa pb : ℤ, a.priority = some pa ∧ b.priority = some pb ∧ pa < pb)) := by
  have hne : ([⟨2, 10, 10, "x", none⟩, ⟨1, 5, 5, "y", none⟩] : List Task) ≠ [] := by simp
  have hnone : ∀ t ∈ ([⟨2, 10, 10, "x", none⟩, ⟨1, 5, 5, "y", none⟩] : List Task),
      t.priority = none := by
    intro t ht
    rcases List.mem_cons.mp ht with rfl | ht2
    · rfl
    · rcases List.mem_singleton.mp ht2 with rfl
      rfl
  exact ⟨hne, hnone, rate_monotonic_assignment_spec _ hne hnone⟩

/-- C9 counterexample: re-deriving the unnamed task `(C=1, T=2)` through
Rate-Monotonic assignment changes its `name` field from `""` to `"τ1"`, so
the new Task is not structurally identical to the original in every field
except `priority`. -/
theorem rm_rename_counterexample :
    assignRM [⟨1, 2, 2, "", none⟩] = [⟨1, 2, 2, "τ1", some 0⟩] ∧
    Task.name ⟨1, 2, 2, "τ1", some 0⟩ ≠ Task.name ⟨1, 2, 2, "", none⟩ := by
  constructor
  · show [rmUpd 0 ⟨1, 2, 2, "", none⟩] = [⟨1, 2, 2, "τ1", some 0⟩]
    rfl
  · decide

/-- C9 amended: re-deriving a Task during Rate-Monotonic assignment produces
a new value with identical `C`, `T`, `D`; the `name` is preserved when
non-empty and replaced by the default `τ(i+1)` when empty; the `priority`
becomes the position; and the original Task values are untouched (they all
still occur in the sorted intermediate list). -/
theorem rm_preserves_fields (ts : List Task) (k : ℕ) (hk : k < (assignRM ts).length)
    (hk2 : k < (List.insertionSort leT ts).length) :
    ((assignRM ts).get ⟨k, hk⟩).C = ((List.insertionSort leT ts).get ⟨k, hk2⟩).C ∧
    ((assignRM ts).get ⟨k, hk⟩).T = ((List.insertionSort leT ts).get ⟨k, hk2⟩).T ∧
    ((assignRM ts).get ⟨k, hk⟩).D = ((List.insertionSort leT ts).get ⟨k, hk2⟩).D ∧
    (((List.insertionSort leT ts).get ⟨k, hk2⟩).name ≠ "" →
      ((assignRM ts).get ⟨k, hk⟩).name = ((List.insertionSort leT ts).get ⟨k, hk2⟩).name) ∧
    (((List.insertionSort leT ts).get ⟨k, hk2⟩).name = "" →
      ((assignRM ts).get ⟨k, hk⟩).name = "τ" ++ toString (k+1)) ∧
    ((assignRM ts).get ⟨k, hk⟩).priority = some (k : ℤ) ∧
    (∀ t ∈ ts, t ∈ List.insertionSort leT ts) := by
  have h := assignGo_get 0 (List.insertionSort leT ts) k hk hk2
  have hrw : (assignRM ts).get ⟨k, hk⟩ =
      rmUpd (0 + k) ((List.insertionSort leT ts).get ⟨k, hk2⟩) := h
  rw [hrw]
  refine ⟨rfl, rfl, rfl, ?_, ?_, by simp [rmUpd], ?_⟩
  · intro hname
    show (if ((List.insertionSort leT ts).get ⟨k, hk2⟩).name = "" then _ else
      ((List.insertionSort leT ts).get ⟨k, hk2⟩).name) = _
    rw [if_neg hname]
  · intro hname
    show (if ((List.insertionSort leT ts).get ⟨k, hk2⟩).name = "" then
      "τ" ++ toString (0 + k + 1) else ((List.insertionSort leT ts).get ⟨k, hk2⟩).name) = _
    rw [if_pos hname]
    norm_num
  · intro t ht
    exact (List.perm_insertionSort leT ts).mem_iff.mpr ht

/-- Witness for C9 amended at a one-task list with a non-empty name. -/
theorem rm_preserves_fields_witness :
    0 < (assignRM [⟨1, 2, 2, "x", none⟩]).length ∧
    0 < (List.insertionSort leT [⟨1, 2, 2, "x", none⟩]).length ∧
    (((assignRM [⟨1, 2, 2, "x", none⟩]).get ⟨0, by norm_num [assignRM_length]⟩).C =
      ((List.insertionSort leT [⟨1, 2, 2, "x", none⟩]).get
        ⟨0, by norm_num [List.length_insertionSort]⟩).C ∧
    ((assignRM [⟨1, 2, 2, "x", none⟩]).get ⟨0, by norm_num [assignRM_length]⟩).T =
      ((List.insertionSort leT [⟨1, 2, 2, "x", none⟩]).get
        ⟨0, by norm_num [List.length_insertionSort]⟩).T ∧
    ((assignRM [⟨1, 2, 2, "x", none⟩]).get ⟨0, by norm_num [assignRM_length]⟩).D =
      ((List.insertionSort leT [⟨1, 2, 2, "x", none⟩]).get
        ⟨0, by norm_num [List.length_insertionSort]⟩).D ∧
    (((List.insertionSort leT [⟨1, 2, 2, "x", none⟩]).get
        ⟨0, by norm_num [List.length_insertionSort]⟩).name ≠ "" →
      ((assignRM [⟨1, 2, 2, "x", none⟩]).get ⟨0, by norm_num [assignRM_length]⟩).name =
        ((List.insertionSort leT [⟨1, 2, 2, "x", none⟩]).get
          ⟨0, by norm_num [List.length_insertionSort]⟩).name) ∧
    (((List.insertionSort leT [⟨1, 2, 2, "x", none⟩]).get
        ⟨0, by norm_num [List.length_insertionSort]⟩).name = "" →
      ((assignRM [⟨1, 2, 2, "x", none⟩]).get ⟨0, by norm_num [assignRM_length]⟩).name =
        "τ" ++ toString (0+1)) ∧
    ((assignRM [⟨1, 2, 2, "x", none⟩]).get ⟨0, by norm_num [assignRM_length]⟩).priority =
      some ((0:ℕ) : ℤ) ∧
    (∀ t ∈ ([⟨1, 2, 2, "x", none⟩] : List Task),
      t ∈ List.insertionSort leT [⟨1, 2, 2, "x", none⟩])) := by
  refine ⟨by norm_num [assignRM_length], by norm_num [List.length_insertionSort], ?_⟩
  exact rm_preserves_fields [⟨1, 2, 2, "x", none⟩] 0
    (by norm_num [assignRM_length]) (by norm_num [List.length_insertionSort])

theorem dictSet_mem_fst (d : List (String × Option ℚ)) (k : String) (v : Option ℚ) :
    k ∈ (dictSet d k v).map Prod.fst := by
  induction d with
  | nil => simp [dictSet]
  | cons kv rest ih =>
    by_cases h : kv.1 = k
    · simp [dictSet, h]
    · simp only [dictSet, if_neg h, List.map_cons, List.mem_cons]
      exact Or.inr ih

theorem dictSet_mem_fst_mono (d : List (String × Option ℚ)) (k : String) (v : Option ℚ)
    (k2 : String) (h : k2 ∈ d.map Prod.fst) : k2 ∈ (dictSet d k v).map Prod.fst := by
  induction d with
  | nil => simp at h
  | cons kv rest ih =>
    rcases List.mem_cons.mp h with h1 | h1
    · by_cases h2 : kv.1 = k
      · simp [dictSet, h2, h1, h2 ▸ h1]
      · simp only [dictSet, if_neg h2, List.map_cons, List.mem_cons]
        exact Or.inl h1
    · by_cases h2 : kv.1 = k
      · simp only [dictSet, if_pos h2, List.map_cons, List.mem_cons]
        exact Or.inr h1
      · simp only [dictSet, if_neg h2, List.map_cons, List.mem_cons]
        exact Or.inr (ih h1)

theorem analyzeGo_spec (ts : List Task) :
    ∀ (l : List Task) (d : List (String × Option ℚ)) (b : Bool),
      (∀ t ∈ l, (t.priority).isSome) →
      ∃ d2, analyzeGo ts l d b = some (b && l.all (fun t => (taskRT ts t).isSome), d2) ∧
        (∀ k ∈ d.map Prod.fst, k ∈ d2.map Prod.fst) ∧
        (∀ t ∈ l, taskKey t ∈ d2.map Prod.fst) := by
  intro l
  induction l with
  | nil =>
    intro d b _
    exact ⟨d, by simp [analyzeGo], fun k hk => hk, by simp⟩
  | cons task rest ih =>
    intro d b hall
    have hps := hall task (List.mem_cons_self task rest)
    obtain ⟨p, hp⟩ := Option.isSome_iff_exists.mp hps
    have hg : get_higher_priority_tasks ts task = some (hpFilter ts p) := by
      rw [get_higher_priority_tasks, hp]
    have hrt : taskRT ts task = compute_response_time task (hpFilter ts p) 1000 := by
      rw [taskRT, hg]
    obtain ⟨d2, heq, hmono, hkeys⟩ :=
      ih (dictSet d (taskKey task) (compute_response_time task (hpFilter ts p) 1000))
        (b && (compute_response_time task (hpFilter ts p) 1000).isSome)
        (fun t ht => hall t (List.mem_cons_of_mem task ht))
    refine ⟨d2, ?_, ?_, ?_⟩
    · simp only [analyzeGo, hg]
      rw [heq]
      congr 1
      rw [List.all_cons, hrt, Bool.and_assoc]
    · intro k hk
      exact hmono k
        (dictSet_mem_fst_mono d (taskKey task)
          (compute_response_time task (hpFilter ts p) 1000) k hk)
    · intro t ht
      rcases List.mem_cons.mp ht with rfl | ht2
      · exact hmono (taskKey t)
          (dictSet_mem_fst d (taskKey t) (compute_response_time t (hpFilter ts p) 1000))
      · exact hkeys t ht2

/-- C3: for a task set whose members all carry a priority, `analyze_taskset`
succeeds, its overall boolean is true exactly when `compute_response_time`
(with the higher-priority subset the task set computes) returns a value for
every member task, and the response-time dict has an entry key for every
member task — one unschedulable task does not short-circuit the rest. -/
theorem analyze_taskset_complete (ts : List Task)
    (hall : ∀ t ∈ ts, (t.priority).isSome) :
    ∃ b d, analyze_taskset ts = some (b, d) ∧
      ((b = true) ↔ ∀ t ∈ ts, (taskRT ts t).isSome = true) ∧
      (∀ t ∈ ts, taskKey t ∈ d.map Prod.fst) := by
  have hperm : List.Perm (get_sorted_tasks ts) ts := List.perm_insertionSort prioLE ts
  have hall2 : ∀ t ∈ get_sorted_tasks ts, (t.priority).isSome :=
    fun t ht => hall t (hperm.mem_iff.mp ht)
  obtain ⟨d2, heq, _, hkeys⟩ := analyzeGo_spec ts (get_sorted_tasks ts) [] true hall2
  rw [Bool.true_and] at heq
  refine ⟨(get_sorted_tasks ts).all (fun t => (taskRT ts t).isSome), d2, heq, ?_, ?_⟩
  · rw [List.all_eq_true]
    constructor
    · intro h t ht
      exact h t (hperm.mem_iff.mpr ht)
    · intro h t ht
      exact h t (hperm.mem_iff.mp ht)
  · intro t ht
    exact hkeys t (hperm.mem_iff.mpr ht)

/-- Witness for C3 at the two-task set `t1 = (C=1, T=4, prio 0)`,
`t2 = (C=2, T=6, prio 1)`. -/
theorem analyze_taskset_complete_witness :
    (∀ t ∈ ([⟨1, 4, 4, "t1", some 0⟩, ⟨2, 6, 6, "t2", some 1⟩] : List Task),
      (t.priority).isSome) ∧
    (∃ b d, analyze_taskset [⟨1, 4, 4, "t1", some 0⟩, ⟨2, 6, 6, "t2", some 1⟩] = some (b, d) ∧
      ((b = true) ↔ ∀ t ∈ ([⟨1, 4, 4, "t1", some 0⟩, ⟨2, 6, 6, "t2", some 1⟩] : List Task),
        (taskRT [⟨1, 4, 4, "t1", some 0⟩, ⟨2, 6, 6, "t2", some 1⟩] t).isSome = true) ∧
      (∀ t ∈ ([⟨1, 4, 4, "t1", some 0⟩, ⟨2, 6, 6, "t2", some 1⟩] : List Task),
        taskKey t ∈ d.map Prod.fst)) := by
  have hall : ∀ t ∈ ([⟨1, 4, 4, "t1", some 0⟩, ⟨2, 6, 6, "t2", some 1⟩] : List Task),
      (t.priority).isSome := by
    intro t ht
    rcases List.mem_cons.mp ht with rfl | ht2
    · rfl
    · rcases List.mem_singleton.mp ht2 with rfl
      rfl
  exact ⟨hall, analyze_taskset_complete _ hall⟩

/-- C5 amended: appending a higher-priority task with `C > 0`, `T > 0` never
decreases any iterate of the response-time recurrence: the `k`-th iterate for
the extended list dominates the `k`-th iterate for the original list.  (The
returned response time itself is not monotone — see the counterexample —
because the epsilon-convergence check can fire earlier, at a smaller iterate,
for the extended list.) -/
theorem rtIter_append_monotone (task : Task) (hp : List Task) (t : Task) (k : ℕ)
    (hC : 0 ≤ task.C) (hhp : ∀ s ∈ hp, 0 < s.C ∧ 0 < s.T)
    (ht : 0 < t.C ∧ 0 < t.T) :
    rtIter task hp k ≤ rtIter task (hp ++ [t]) k := by
  have hhp2 : ∀ s ∈ hp ++ [t], 0 < s.C ∧ 0 < s.T := by
    intro s hs
    rcases List.mem_append.mp hs with h | h
    · exact hhp s h
    · rcases List.mem_singleton.mp h with rfl
      exact ht
  have hnn : ∀ m, 0 ≤ rtIter task (hp ++ [t]) m := by
    intro m
    induction m with
    | zero => exact hC
    | succ m ihm => exact nextIter_nonneg task _ _ hC hhp2 ihm
  induction k with
  | zero => exact le_refl _
  | succ k ihk =>
    calc rtIter task hp (k+1) = nextIter task hp (rtIter task hp k) := rfl
      _ ≤ nextIter task hp (rtIter task (hp ++ [t]) k) := by
          unfold nextIter
          exact add_le_add_left (interference_mono hp hhp ihk) _
      _ ≤ nextIter task (hp ++ [t]) (rtIter task (hp ++ [t]) k) := by
          unfold nextIter
          exact add_le_add_left (interference_append_le hp t _ ht (hnn k)) _

/-- Witness for C5 amended: target `(C=1, T=2)`, empty original list, one
appended unit task, iterate index 2. -/
theorem rtIter_append_monotone_witness :
    (0:ℚ) ≤ Task.C ⟨1, 2, 2, "", none⟩ ∧
    (∀ s ∈ ([] : List Task), 0 < s.C ∧ 0 < s.T) ∧
    (0 < Task.C ⟨1, 1, 1, "", none⟩ ∧ 0 < Task.T ⟨1, 1, 1, "", none⟩) ∧
    rtIter ⟨1, 2, 2, "", none⟩ [] 2 ≤
      rtIter ⟨1, 2, 2, "", none⟩ ([] ++ [⟨1, 1, 1, "", none⟩]) 2 := by
  refine ⟨by norm_num, by simp, by norm_num, ?_⟩
  exact rtIter_append_monotone ⟨1, 2, 2, "", none⟩ [] ⟨1, 1, 1, "", none⟩ 2
    (by norm_num) (by simp) (by norm_num)

/-- Target task of the C5 counterexample: `C ≈ 0.0398`, `T = D = 4`. -/
def cxTarget : Task := ⟨4974999987/125000000000, 4, 4, "tgt", none⟩

/-- Main climbing interferer of the C5 counterexample: `C = 0.98`, `T = 1`. -/
def cxB : Task := ⟨49/50, 1, 1, "b", none⟩

/-- Fine-lattice interferer of the C5 counterexample: `C = 1e-4`,
`T ≈ 1.0199`. -/
def cxW : Task := ⟨1/10000, 2039799999997/2000000000000, 2039799999997/2000000000000, "w", none⟩

/-- Nano-lattice interferer of the C5 counterexample: `C = 1.02e-10`,
`T = 1.5`. -/
def cxU : Task := ⟨51/500000000000, 3/2, 3/2, "u", none⟩

/-- The appended higher-priority task of the C5 counterexample:
`C = 1e-12 > 0`, `T = 1e6`. -/
def cxT : Task := ⟨1/1000000000000, 1000000, 1000000, "t", none⟩

/-- C5 counterexample: all five tasks are valid and the appended task has
`C > 0`, yet appending it strictly decreases the result of
`compute_response_time`: the original list converges to `≈ 2.98` while the
extended list passes the `|R_new - R_prev| < 1e-9` convergence test three
iterations in, at `≈ 2.0000000001`. -/
theorem interference_monotonicity_counterexample :
    ValidTask cxTarget ∧ (∀ s ∈ [cxB, cxW, cxU], ValidTask s) ∧ ValidTask cxT ∧
    0 < cxT.C ∧
    compute_response_time cxTarget [cxB, cxW, cxU] 1000 =
      some (29801000001/10000000000) ∧
    compute_response_time cxTarget [cxB, cxW, cxU, cxT] 1000 =
      some (2000000000101/1000000000000) ∧
    (2000000000101/1000000000000 : ℚ) < 29801000001/10000000000 := by
  have h1 : rtLoop cxTarget [cxB, cxW, cxU] 8 cxTarget.C =
      some (29801000001/10000000000) := by
    norm_num [rtLoop, nextIter, interference, cxTarget, cxB, cxW, cxU,
      ceil_to_floor, abs_sub_lt_iff, abs_lt]
  have h2 : rtLoop cxTarget [cxB, cxW, cxU, cxT] 8 cxTarget.C =
      some (2000000000101/1000000000000) := by
    norm_num [rtLoop, nextIter, interference, cxTarget, cxB, cxW, cxU, cxT,
      ceil_to_floor, abs_sub_lt_iff, abs_lt]
  refine ⟨?_, ?_, ?_, ?_, ?_, ?_, by norm_num⟩
  · norm_num [ValidTask, cxTarget]
  · intro s hs
    rcases List.mem_cons.mp hs with rfl | hs2
    · norm_num [ValidTask, cxB]
    · rcases List.mem_cons.mp hs2 with rfl | hs3
      · norm_num [ValidTask, cxW]
      · rcases List.mem_singleton.mp hs3 with rfl
        norm_num [ValidTask, cxU]
  · norm_num [ValidTask, cxT]
  · norm_num [cxT]
  · exact rtLoop_some_mono cxTarget [cxB, cxW, cxU] h1 (by norm_num)
  · exact rtLoop_some_mono cxTarget [cxB, cxW, cxU, cxT] h2 (by norm_num)

end RTA
